import Mathlib

/-!
# Verification of the execx pipeline execution engine

A shallow embedding of the pipeline/stage/result core of the `execx` Go
package: stage start/wait orchestration (`pipeline.start`, `pipeline.wait`),
per-stage result computation (`stage.result`), pipe-mode reduction
(`pipeline.primaryResult`), the PTY configuration validation (`validatePTY`),
the entry points (`Run`, `CombinedOutput`, `PipelineResults`, `Start`), the
asynchronous process handle (`Process.finish` / `Process.Wait`), and the
line-buffering writer (`lineWriter.Write`).

OS interaction (spawn outcomes, wait outcomes, context cancellation, the
process exit record, captured output) is supplied by a per-stage oracle
`StageWorld`; the engine logic itself is translated statement by statement
from the Go source.
-/

namespace Execx

/-- Go `error` values that the engine distinguishes.  `errors.Is` against
`context.Canceled` / `context.DeadlineExceeded` is modelled by the
`canceled` / `deadlineExceeded` constructors; `ErrExec` (the typed execution
failure, from the source file defining `ErrExec`) is the `errExec`
constructor carrying its `Err`, `ExitCode` and `Stderr` fields. -/
inductive GoErr where
  | canceled : GoErr
  | deadlineExceeded : GoErr
  | exitErr : Int → GoErr
  | config : String → GoErr
  | errExec : Option GoErr → Int → String → GoErr
  | other : String → GoErr

/-- Translation of `errors.Is(e, context.Canceled) || errors.Is(e, context.DeadlineExceeded)`. -/
def GoErr.isCancellation : GoErr → Bool
  | .canceled => true
  | .deadlineExceeded => true
  | _ => false

/-- The `Result` struct from the source: outcome of one command execution.
`Duration` is wall-clock time and is omitted from the model; `signal` is the
terminating signal number when one was observed. -/
structure Result where
  Stdout : String
  Stderr : String
  ExitCode : Int
  Err : Option GoErr
  signal : Option Int

/-- The zero `Result` (Go zero value). -/
def Result.zero : Result :=
  { Stdout := "", Stderr := "", ExitCode := 0, Err := none, signal := none }

instance : Inhabited Result := ⟨Result.zero⟩

/-- The `pipeMode` enum from the source: `pipeStrict` or `pipeBestEffort`. -/
inductive PipeMode where
  | strict : PipeMode
  | bestEffort : PipeMode
deriving DecidableEq

/-- The strict-mode failure test from `primaryResult`:
`res.ExitCode != 0 || res.Err != nil`. -/
def failing (r : Result) : Bool :=
  r.ExitCode != 0 || r.Err.isSome

/-- The strict-mode scan of `primaryResult`: index of the first `Result`
with nonzero exit code or non-nil error (the Go `for i, res := range`
loop with `break`). -/
def firstFailIdx : List Result → Option Nat
  | [] => none
  | r :: rs => if failing r then some 0 else (firstFailIdx rs).map (· + 1)

/-- The best-effort error scan of `primaryResult`: the first non-nil
stage error in declaration order. -/
def firstStageErr : List Result → Option GoErr
  | [] => none
  | r :: rs => match r.Err with
    | some e => some e
    | none => firstStageErr rs

/-- Index `primaryIndex` as computed by `pipeline.primaryResult`: initialised to
the last index, overridden in strict mode by the first failing index. -/
def primaryIndex (mode : PipeMode) (results : List Result) : Nat :=
  match mode with
  | .strict => (firstFailIdx results).getD (results.length - 1)
  | .bestEffort => results.length - 1

/-- Function `pipeline.primaryResult` (reduction part): select the primary `Result`
for the whole pipeline according to the pipe mode; in best-effort mode,
when the primary has no error of its own, copy in the first non-nil stage
error found. -/
def primaryResult (mode : PipeMode) (results : List Result) : Result :=
  let primary := results.getD (primaryIndex mode results) default
  if mode = .bestEffort ∧ primary.Err.isNone then
    match firstStageErr results with
    | some e => { primary with Err := some e }
    | none => primary
  else
    primary

/-- Function `firstResultErr` from the source: error of the first `Result` whose
`Err` field is non-nil, else nil. -/
def firstResultErr : List Result → Option GoErr
  | [] => none
  | r :: rs => match r.Err with
    | some e => some e
    | none => firstResultErr rs

/-! ## The per-stage OS oracle and the start/wait orchestration -/

/-- Per-stage outcomes of all OS interactions: what `openPTY` would return
for this stage, what `cmd.Start()` would return if attempted, what
`cmd.Wait()` would return if waited on, the PTY drain copy error, the
observed `ctx.Err()` of the stage binding, the process exit record
(`ProcessState`: exit code and terminating signal) if the process ran,
and the bytes the process would deposit in the capture buffers. -/
structure StageWorld where
  ptyOpenErr : Option GoErr := none
  spawnErr : Option GoErr := none
  osWaitErr : Option GoErr := none
  ptyCopyErr : Option GoErr := none
  ctxErr : Option GoErr := none
  exitRecord : Option (Int × Option Int) := none
  stdout : String := ""
  stderr : String := ""
  combined : String := ""

instance : Inhabited StageWorld := ⟨{}⟩

/-- Function `pipeline.start`: walk the stages in order; a stage whose setup failed
(PTY open error, only possible when PTY mode is on) gets that error as its
start error and stops the walk; a stage whose `cmd.Start()` fails gets the
spawn error, which is also copied onto every later stage, and stops the
walk.  Returns, per stage, its `startErr` and whether its process was
actually spawned. -/
def startPhase (usePTY : Bool) : List StageWorld → List (Option GoErr × Bool)
  | [] => []
  | w :: rest =>
    let setupErr := if usePTY then w.ptyOpenErr else none
    match setupErr with
    | some e => (some e, false) :: rest.map (fun _ => (none, false))
    | none =>
      match w.spawnErr with
      | some e => (some e, false) :: rest.map (fun _ => (some e, false))
      | none => (none, true) :: startPhase usePTY rest

/-- Function `pipeline.wait` for one stage: a stage that was never spawned is
skipped; otherwise the OS wait error is taken, and for a PTY stage a drain
copy error replaces a nil wait error. -/
def waitOf (usePTY : Bool) (w : StageWorld) (spawned : Bool) : Option GoErr :=
  if spawned then
    match w.osWaitErr with
    | some e => some e
    | none => if usePTY then w.ptyCopyErr else none
  else none

/-- The terminal state of one `stage` after `newPipeline` + `start` +
`wait`: exactly the fields `stage.result` reads. -/
structure StageState where
  stdoutBuf : String
  stderrBuf : String
  startErr : Option GoErr
  waitErr : Option GoErr
  ctxErr : Option GoErr
  exitRecord : Option (Int × Option Int)

instance : Inhabited StageState :=
  ⟨{ stdoutBuf := "", stderrBuf := "", startErr := none, waitErr := none,
     ctxErr := none, exitRecord := none }⟩

/-- Terminal state of one stage given its start-phase outcome `p`
(start error, spawned flag): a never-spawned process deposits nothing in
the buffers and leaves no exit record. -/
def stageOf (usePTY : Bool) (w : StageWorld) (p : Option GoErr × Bool) : StageState :=
  { stdoutBuf := if p.2 then w.stdout else ""
    stderrBuf := if p.2 then w.stderr else ""
    startErr := p.1
    waitErr := waitOf usePTY w p.2
    ctxErr := w.ctxErr
    exitRecord := if p.2 then w.exitRecord else none }

/-- Terminal stage states of a whole pipeline: combine the start phase with
the wait phase. -/
def execStages (usePTY : Bool) (ws : List StageWorld) : List StageState :=
  List.zipWith (stageOf usePTY) ws (startPhase usePTY ws)

/-- Function `stage.result`: map a terminated stage to its immutable `Result`.
Translated clause by clause from the source: start failure short-circuits
with an `ErrExec` and exit code −1; otherwise a cancellation wait error, or
(failing that, and only when a wait error exists) an observed fired
context, becomes the error; the exit code and signal come from the process
exit record when available. -/
def StageState.result (s : StageState) : Result :=
  let res : Result :=
    { Stdout := s.stdoutBuf, Stderr := s.stderrBuf, ExitCode := -1,
      Err := none, signal := none }
  match s.startErr with
  | some e => { res with Err := some (.errExec (some e) (-1) res.Stderr) }
  | none =>
    let res :=
      match s.waitErr with
      | some w =>
        let res1 := if w.isCancellation then { res with Err := some w } else res
        match res1.Err, s.ctxErr with
        | none, some ce => { res1 with Err := some ce }
        | _, _ => res1
      | none => res
    match s.exitRecord with
    | some rec => { res with ExitCode := rec.1, signal := rec.2 }
    | none => res

/-- Function `pipeline.results`: one `Result` per stage, in declaration order. -/
def pipelineResults (usePTY : Bool) (ws : List StageWorld) : List Result :=
  (execStages usePTY ws).map StageState.result

/-- Whether any stage's process was actually spawned. -/
def anySpawned (usePTY : Bool) (ws : List StageWorld) : Bool :=
  (startPhase usePTY ws).any (fun p => p.2)

/-! ## Command chains and the execution entry points -/

/-- A fully built command chain, as the entry points see it: the root
PTY flag, the pipe mode, the platform PTY support check outcome
(`ptyCheckFunc`), and one `StageWorld` per stage (`root.next != nil` is
`worlds.length > 1`). -/
structure Chain where
  usePTY : Bool
  mode : PipeMode
  ptyCheckErr : Option GoErr := none
  worlds : List StageWorld

/-- The configuration error `validatePTY` builds for a PTY request on a
multi-stage pipeline. -/
def ptyPipelineErr : GoErr :=
  .config "execx: WithPTY is not supported with pipelines"

/-- Function `Cmd.validatePTY`: nil unless PTY is requested; a PTY request on a
multi-stage chain is a configuration error; otherwise the platform
support check decides. -/
def Chain.validatePTY (c : Chain) : Option GoErr :=
  if c.usePTY = false then none
  else if 1 < c.worlds.length then some ptyPipelineErr
  else c.ptyCheckErr

/-- What `Cmd.Run` returns, instrumented with the per-stage results it
computed and whether any process was spawned. -/
structure RunReturn where
  res : Result
  err : Option GoErr
  stageResults : List Result
  spawnedAny : Bool

/-- Function `Cmd.Run`: validate, then materialize/start/wait the pipeline and
reduce with `primaryResult`; a validation error returns
`Result{Err: err, ExitCode: -1}` with no process spawned. -/
def Chain.runCall (c : Chain) : RunReturn :=
  match c.validatePTY with
  | some e =>
    { res := { Result.zero with Err := some e, ExitCode := -1 },
      err := some e, stageResults := [], spawnedAny := false }
  | none =>
    let results := pipelineResults c.usePTY c.worlds
    let primary := primaryResult c.mode results
    { res := primary, err := primary.Err, stageResults := results,
      spawnedAny := anySpawned c.usePTY c.worlds }

/-- What `Cmd.CombinedOutput` returns. -/
structure CombinedReturn where
  combined : String
  err : Option GoErr
  spawnedAny : Bool

/-- Function `Cmd.CombinedOutput`: validate, run the pipeline with the combined
buffer enabled, and return the primary stage's combined buffer together
with the primary error; a validation error returns `("", err)` with no
process spawned. -/
def Chain.combinedOutputCall (c : Chain) : CombinedReturn :=
  match c.validatePTY with
  | some e => { combined := "", err := some e, spawnedAny := false }
  | none =>
    let results := pipelineResults c.usePTY c.worlds
    let primary := primaryResult c.mode results
    let idx := primaryIndex c.mode results
    let spawnedAt := ((startPhase c.usePTY c.worlds).getD idx (none, false)).2
    { combined := if spawnedAt then (c.worlds.getD idx default).combined else "",
      err := primary.Err,
      spawnedAny := anySpawned c.usePTY c.worlds }

/-- What `Cmd.PipelineResults` returns. -/
structure PipelineReturn where
  results : List Result
  err : Option GoErr
  spawnedAny : Bool

/-- Function `Cmd.PipelineResults`: validate, run the pipeline, and return every
per-stage `Result` together with `firstResultErr` over them; a validation
error returns `(nil, err)` with no process spawned. -/
def Chain.pipelineResultsCall (c : Chain) : PipelineReturn :=
  match c.validatePTY with
  | some e => { results := [], err := some e, spawnedAny := false }
  | none =>
    let results := pipelineResults c.usePTY c.worlds
    { results := results, err := firstResultErr results,
      spawnedAny := anySpawned c.usePTY c.worlds }

/-! ## The asynchronous process handle -/

/-- The mutable state of a `Process` handle: whether the completion latch
has fired, the stored primary `Result`, and (ghost) how many times the
`sync.Once` body has executed. -/
structure ProcState where
  fired : Bool
  result : Result
  fireCount : Nat

/-- A freshly created `Process` before its pipeline completes. -/
def ProcState.fresh : ProcState :=
  { fired := false, result := default, fireCount := 0 }

/-- Function `Process.finish`: the `sync.Once` gate — the first call stores the
result and fires the completion latch; every later call is a no-op. -/
def ProcState.finish (p : ProcState) (r : Result) : ProcState :=
  if p.fired then p
  else { fired := true, result := r, fireCount := p.fireCount + 1 }

/-- Function `Process.Wait` (after the completion latch has fired): return the
stored primary `Result` and its error. -/
def ProcState.waitCall (p : ProcState) : Result × Option GoErr :=
  (p.result, p.result.Err)

/-- What `Cmd.Start` produces, with the handle observed after the
background wait-and-reduce has finished. -/
structure StartReturn where
  proc : ProcState
  stageResults : List Result
  spawnedAny : Bool

/-- Function `Cmd.Start`: a validation error returns a handle already finished with
`Result{Err: err, ExitCode: -1}` and spawns nothing; otherwise the
pipeline is started synchronously and the background task waits, reduces
with `primaryResult`, and finishes the handle. -/
def Chain.startCall (c : Chain) : StartReturn :=
  match c.validatePTY with
  | some e =>
    { proc := ProcState.fresh.finish { Result.zero with Err := some e, ExitCode := -1 },
      stageResults := [], spawnedAny := false }
  | none =>
    let results := pipelineResults c.usePTY c.worlds
    let primary := primaryResult c.mode results
    { proc := ProcState.fresh.finish primary, stageResults := results,
      spawnedAny := anySpawned c.usePTY c.worlds }

/-! ## The line-buffering writer

Bytes are modelled as natural numbers (`10` is the newline byte, `13` the
carriage return); an emitted line is the byte sequence handed to the
callback. -/

/-- Translation of `strings.TrimSuffix(line, "\x0d")`: strip one trailing carriage
return, if present. -/
def stripCR (line : List Nat) : List Nat :=
  if line.getLast? = some 13 then line.dropLast else line

/-- Method `lineWriter.Write` on one byte slice: walk the bytes; a newline emits
the accumulated buffer (with one trailing carriage return stripped) to the
callback and resets the buffer; any other byte is appended to the buffer.
Returns the new buffer and the emitted lines in callback order. -/
def lwWrite : List Nat → List Nat → List Nat × List (List Nat)
  | buf, [] => (buf, [])
  | buf, b :: rest =>
    if b = 10 then
      let out := lwWrite [] rest
      (out.1, stripCR buf :: out.2)
    else
      lwWrite (buf ++ [b]) rest

/-- A sequence of `Write` calls against one adapter, threading the buffer
and concatenating the emitted lines. -/
def lwRun : List Nat → List (List Nat) → List Nat × List (List Nat)
  | buf, [] => (buf, [])
  | buf, p :: ps =>
    let w := lwWrite buf p
    let r := lwRun w.1 ps
    (r.1, w.2 ++ r.2)

/-- Modelled from the claim: split a byte stream into its
newline-terminated segments (each excluding its terminating newline) and
the residue after the last newline. -/
def splitNL : List Nat → List (List Nat) × List Nat
  | [] => ([], [])
  | b :: rest =>
    let s := splitNL rest
    if b = 10 then ([] :: s.1, s.2)
    else
      match s.1 with
      | [] => ([], b :: s.2)
      | seg :: segs => ((b :: seg) :: segs, s.2)

/-! ## Concrete inputs used by witnesses and counterexamples -/

/-- A chain whose single stage's spawn fails. -/
def c3Chain : Chain :=
  { usePTY := false, mode := .strict,
    worlds := [{ spawnErr := some (.other "spawn failed") }] }

/-- A chain whose single stage exits with code 7. -/
def c4Chain : Chain :=
  { usePTY := false, mode := .strict,
    worlds := [{ osWaitErr := some (.exitErr 7), exitRecord := some (7, none) }] }

/-- Counterexample input to C5: a started stage whose OS wait returned no
error at all while its bound context has fired. -/
def c5Stage : StageState :=
  { stdoutBuf := "", stderrBuf := "", startErr := none, waitErr := none,
    ctxErr := some .canceled, exitRecord := some (0, none) }

/-- A started stage with an uncancelled wait error and a fired context. -/
def c5aStage : StageState :=
  { stdoutBuf := "", stderrBuf := "", startErr := none,
    waitErr := some (.exitErr 1), ctxErr := some .deadlineExceeded,
    exitRecord := none }

/-- A started stage with no wait error. -/
def c5bStage : StageState :=
  { stdoutBuf := "", stderrBuf := "", startErr := none, waitErr := none,
    ctxErr := none, exitRecord := some (0, none) }

/-- A two-stage pipeline whose first stage's PTY setup failed. -/
def c6Worlds : List StageWorld :=
  [{ ptyOpenErr := some (.other "pty open failed") }, {}]

/-- A two-stage pipeline whose first stage's spawn fails. -/
def c6aWorlds : List StageWorld :=
  [{ spawnErr := some (.other "spawn failed") }, {}]

/-- A two-stage chain requesting PTY mode. -/
def c7Chain : Chain :=
  { usePTY := true, mode := .strict, worlds := [{}, {}] }

/-- A plain two-stage chain where the first stage fails to spawn. -/
def c10Chain : Chain :=
  { usePTY := false, mode := .strict,
    worlds := [{ spawnErr := some (.other "boom") }, {}] }

/-! ## Helper lemmas -/

theorem getD_last_eq_getLast (l : List Result) (h : l ≠ []) :
    l.getD (l.length - 1) default = l.getLast h := by
  have hlen : l.length - 1 < l.length := by
    cases l with
    | nil => exact absurd rfl h
    | cons a as => simp
  rw [List.getLast_eq_getElem, List.getD_eq_getElem l default hlen]

theorem firstFailIdx_some_find (l : List Result) (i : Nat)
    (h : firstFailIdx l = some i) :
    l.find? failing = some (l.getD i default) := by
  induction l generalizing i with
  | nil => simp [firstFailIdx] at h
  | cons r rs ih =>
    by_cases hf : failing r
    · simp [firstFailIdx, hf] at h
      subst h
      simp [List.find?_cons_of_pos _ hf]
    · simp [firstFailIdx, hf] at h
      obtain ⟨j, hj, hij⟩ := h
      rw [List.find?_cons_of_neg _ (by simpa using hf)]
      rw [← hij, List.getD_cons_succ]
      exact ih j hj

theorem firstFailIdx_none_find (l : List Result)
    (h : firstFailIdx l = none) :
    l.find? failing = none := by
  induction l with
  | nil => simp
  | cons r rs ih =>
    by_cases hf : failing r
    · simp [firstFailIdx, hf] at h
    · simp [firstFailIdx, hf, Option.map_eq_none] at h
      rw [List.find?_cons_of_neg _ (by simpa using hf)]
      exact ih h

theorem startPhase_length (u : Bool) (ws : List StageWorld) :
    (startPhase u ws).length = ws.length := by
  induction ws with
  | nil => rfl
  | cons w rest ih =>
    simp only [startPhase]
    cases (if u then w.ptyOpenErr else none) with
    | some e => simp
    | none =>
      cases w.spawnErr with
      | some e => simp
      | none => simpa using ih

theorem zipWith_getD_lt {α β γ : Type} [Inhabited γ] (f : α → β → γ)
    (l1 : List α) (l2 : List β) (i : Nat)
    (h1 : i < l1.length) (h2 : i < l2.length) (d1 : α) (d2 : β) :
    (List.zipWith f l1 l2).getD i default = f (l1.getD i d1) (l2.getD i d2) := by
  induction l1 generalizing l2 i with
  | nil => simp at h1
  | cons a as ih =>
    cases l2 with
    | nil => simp at h2
    | cons b bs =>
      cases i with
      | zero => rfl
      | succ j =>
        simp only [List.zipWith_cons_cons, List.getD_cons_succ]
        exact ih bs j (by simpa using h1) (by simpa using h2)

theorem getD_map_lt {α β : Type} [Inhabited α] [Inhabited β] (f : α → β)
    (l : List α) (i : Nat) (hi : i < l.length) :
    (l.map f).getD i default = f (l.getD i default) := by
  induction l generalizing i with
  | nil => simp at hi
  | cons a as ih =>
    cases i with
    | zero => rfl
    | succ j => simpa using ih j (by simpa using hi)

theorem execStages_getD (u : Bool) (ws : List StageWorld) (i : Nat)
    (hi : i < ws.length) :
    (execStages u ws).getD i default =
      stageOf u (ws.getD i default) ((startPhase u ws).getD i (none, false)) := by
  unfold execStages
  exact zipWith_getD_lt (stageOf u) ws (startPhase u ws) i hi
    (by rw [startPhase_length]; exact hi) default (none, false)

theorem result_of_startErr (s : StageState) (e : GoErr) (h : s.startErr = some e) :
    s.result = { Stdout := s.stdoutBuf, Stderr := s.stderrBuf, ExitCode := -1,
                 Err := some (.errExec (some e) (-1) s.stderrBuf), signal := none } := by
  unfold StageState.result
  rw [h]

theorem result_clean (s : StageState) (k : Int) (sig : Option Int)
    (h1 : s.startErr = none)
    (h2 : s.waitErr = none ∨ ∃ w, s.waitErr = some w ∧ w.isCancellation = false)
    (hctx : s.ctxErr = none) (hrec : s.exitRecord = some (k, sig)) :
    s.result = { Stdout := s.stdoutBuf, Stderr := s.stderrBuf, ExitCode := k,
                 Err := none, signal := sig } := by
  unfold StageState.result
  rw [h1, hctx, hrec]
  rcases h2 with h2 | ⟨wv, h2, hc⟩
  · rw [h2]
  · rw [h2]
    simp [hc]

theorem firstStageErr_none_iff (l : List Result) :
    firstStageErr l = none ↔ ∀ r ∈ l, r.Err = none := by
  induction l with
  | nil => simp [firstStageErr]
  | cons r rs ih =>
    cases he : r.Err with
    | some e => simp [firstStageErr, he]
    | none => simp [firstStageErr, he, ih]

theorem firstStageErr_eq_find (l : List Result) :
    firstStageErr l = (l.find? (fun r => r.Err.isSome)).bind Result.Err := by
  induction l with
  | nil => rfl
  | cons r rs ih =>
    cases he : r.Err with
    | some e =>
      rw [List.find?_cons_of_pos _ (by simp [he])]
      simp [firstStageErr, he]
    | none =>
      rw [List.find?_cons_of_neg _ (by simp [he])]
      simp only [firstStageErr, he]
      exact ih

theorem primaryResult_strict_eq (results : List Result) :
    primaryResult .strict results =
      results.getD ((firstFailIdx results).getD (results.length - 1)) default := by
  unfold primaryResult primaryIndex
  simp

theorem primaryResult_bestEffort_eq (results : List Result) :
    primaryResult .bestEffort results =
      (if (results.getD (results.length - 1) default).Err.isNone then
        match firstStageErr results with
        | some e => { results.getD (results.length - 1) default with Err := some e }
        | none => results.getD (results.length - 1) default
      else results.getD (results.length - 1) default) := by
  unfold primaryResult primaryIndex
  by_cases hn : (results.getD (results.length - 1) default).Err.isNone
  · rw [if_pos (And.intro rfl hn), if_pos hn]
  · rw [if_neg (fun hc => hn hc.2), if_neg hn]

/-! ## Claims -/

/-- C1: for every pipeline run in strict mode, the primary `Result` is the
first one (in declaration order) whose exit code is nonzero or whose error
is non-nil; when no stage qualifies, the primary is the last stage's
`Result`. -/
theorem strict_primary_is_first_failure_else_last
    (results : List Result) (h : results ≠ []) :
    primaryResult .strict results =
      match results.find? failing with
      | some r => r
      | none => results.getLast h := by
  rw [primaryResult_strict_eq]
  cases hfi : firstFailIdx results with
  | some i =>
    rw [firstFailIdx_some_find results i hfi]
    rfl
  | none =>
    rw [firstFailIdx_none_find results hfi]
    exact getD_last_eq_getLast results h

theorem strict_primary_witness :
    ([⟨"", "", 2, none, none⟩, ⟨"ok", "", 0, none, none⟩] : List Result) ≠ [] ∧
    primaryResult .strict [⟨"", "", 2, none, none⟩, ⟨"ok", "", 0, none, none⟩] =
      ⟨"", "", 2, none, none⟩ := by
  refine ⟨by simp, ?_⟩
  rw [strict_primary_is_first_failure_else_last _ (by simp)]
  rfl

/-- C2: for every pipeline run in best-effort mode, the primary `Result`
is the last stage's `Result`; when that `Result`'s own error is nil the
returned primary instead carries the first non-nil stage error in
declaration order, which is nil exactly when every stage's error is nil. -/
theorem bestEffort_primary_is_last_with_first_error
    (results : List Result) (h : results ≠ []) :
    (primaryResult .bestEffort results =
      (if (results.getLast h).Err.isNone
       then { results.getLast h with Err := firstStageErr results }
       else results.getLast h)) ∧
    (firstStageErr results = (results.find? (fun r => r.Err.isSome)).bind Result.Err) ∧
    (firstStageErr results = none ↔ ∀ r ∈ results, r.Err = none) := by
  refine ⟨?_, firstStageErr_eq_find results, firstStageErr_none_iff results⟩
  rw [primaryResult_bestEffort_eq, getD_last_eq_getLast results h]
  cases he : (results.getLast h).Err with
  | some e => simp [he]
  | none =>
    cases hfe : firstStageErr results with
    | some e => simp [he, hfe]
    | none =>
      simp only [he, hfe, Option.isNone_none, if_pos]
      cases hl : results.getLast h
      simp_all

theorem bestEffort_primary_witness :
    ([⟨"", "", 2, some (.exitErr 2), none⟩, ⟨"ok", "", 0, none, none⟩] : List Result) ≠ [] ∧
    primaryResult .bestEffort
      [⟨"", "", 2, some (.exitErr 2), none⟩, ⟨"ok", "", 0, none, none⟩] =
      ⟨"ok", "", 0, some (.exitErr 2), none⟩ := by
  refine ⟨by simp, ?_⟩
  have h2 := bestEffort_primary_is_last_with_first_error
    [⟨"", "", 2, some (.exitErr 2), none⟩, ⟨"ok", "", 0, none, none⟩] (by simp)
  rw [h2.1]
  rfl

/-- C3: for every stage whose process never started (its start or setup
errored), the computed `Result` has exit code −1 and a non-nil `ErrExec`
error wrapping the start error and carrying the captured stderr; the
synchronous `Run` path and the asynchronous `Start` path compute the same
per-stage `Result`s. -/
theorem never_started_yields_errExec (c : Chain) (i : Nat) (e : GoErr)
    (hv : c.validatePTY = none)
    (he : ((startPhase c.usePTY c.worlds).getD i (none, false)).1 = some e) :
    (c.runCall.stageResults.getD i default).ExitCode = -1 ∧
    (c.runCall.stageResults.getD i default).Err =
      some (.errExec (some e) (-1) (c.runCall.stageResults.getD i default).Stderr) ∧
    c.startCall.stageResults = c.runCall.stageResults := by
  have hi : i < c.worlds.length := by
    by_contra hlt
    push_neg at hlt
    rw [List.getD_eq_default] at he
    · simp at he
    · rw [startPhase_length]
      exact hlt
  have hrun : c.runCall.stageResults = pipelineResults c.usePTY c.worlds := by
    unfold Chain.runCall
    rw [hv]
  have hstart : c.startCall.stageResults = pipelineResults c.usePTY c.worlds := by
    unfold Chain.startCall
    rw [hv]
  have hlen2 : i < (execStages c.usePTY c.worlds).length := by
    unfold execStages
    rw [List.length_zipWith, startPhase_length]
    simpa using hi
  have hmap : ((execStages c.usePTY c.worlds).map StageState.result).getD i default
      = ((execStages c.usePTY c.worlds).getD i default).result :=
    getD_map_lt StageState.result _ i hlen2
  have hres : pipelineResults c.usePTY c.worlds
      = (execStages c.usePTY c.worlds).map StageState.result := rfl
  rw [hrun, hstart, hres, hmap, execStages_getD c.usePTY c.worlds i hi,
    result_of_startErr _ e he]
  exact ⟨rfl, rfl, rfl⟩


theorem never_started_witness :
    c3Chain.validatePTY = none ∧
    ((startPhase c3Chain.usePTY c3Chain.worlds).getD 0 (none, false)).1 =
      some (.other "spawn failed") ∧
    ((c3Chain.runCall.stageResults.getD 0 default).ExitCode = -1 ∧
     (c3Chain.runCall.stageResults.getD 0 default).Err =
       some (.errExec (some (.other "spawn failed")) (-1)
         (c3Chain.runCall.stageResults.getD 0 default).Stderr) ∧
     c3Chain.startCall.stageResults = c3Chain.runCall.stageResults) :=
  ⟨rfl, rfl, never_started_yields_errExec c3Chain 0 (.other "spawn failed") rfl rfl⟩

theorem primaryResult_single (mode : PipeMode) (r : Result) (hr : r.Err = none) :
    primaryResult mode [r] = r := by
  cases mode with
  | strict =>
    rw [primaryResult_strict_eq]
    by_cases hf : failing r
    · simp [firstFailIdx, hf]
    · simp [firstFailIdx, hf]
  | bestEffort =>
    rw [primaryResult_bestEffort_eq]
    simp [firstStageErr, hr]

/-- C4: for every single-stage command whose process starts successfully
and exits with code `k` (the OS wait reporting an exit-status error
exactly when `k ≠ 0`, with no cancellation observed), the returned
`Result` has `ExitCode = k` and a nil error — a nonzero exit code alone
never produces a `Result` error. -/
theorem single_stage_exit_code_is_not_error (c : Chain) (w : StageWorld) (k : Int)
    (hw : c.worlds = [w]) (hpty : c.usePTY = false)
    (hspawn : w.spawnErr = none)
    (hwait : w.osWaitErr = if k = 0 then none else some (.exitErr k))
    (hctx : w.ctxErr = none)
    (hexit : w.exitRecord = some (k, none)) :
    c.runCall.res.ExitCode = k ∧ c.runCall.res.Err = none := by
  have hv : c.validatePTY = none := by
    unfold Chain.validatePTY
    rw [hpty]
    simp
  have hsp : startPhase c.usePTY c.worlds = [(none, true)] := by
    rw [hw, hpty]
    simp [startPhase, hspawn]
  have hst : execStages c.usePTY c.worlds = [stageOf false w (none, true)] := by
    rw [hw, hpty] at hsp ⊢
    unfold execStages
    rw [hsp]
    rfl
  have hwerr : (stageOf false w (none, true)).waitErr =
      (if k = 0 then none else some (.exitErr k)) := by
    simp only [stageOf, waitOf, hwait]
    by_cases hk : k = 0
    · simp [hk]
    · simp [hk]
  have hwdis : (stageOf false w (none, true)).waitErr = none ∨
      ∃ wv, (stageOf false w (none, true)).waitErr = some wv ∧
        wv.isCancellation = false := by
    by_cases hk : k = 0
    · left
      rw [hwerr, if_pos hk]
    · right
      exact ⟨.exitErr k, by rw [hwerr, if_neg hk], rfl⟩
  have hr : (stageOf false w (none, true)).result =
      { Stdout := w.stdout, Stderr := w.stderr, ExitCode := k, Err := none,
        signal := none } := by
    rw [result_clean (stageOf false w (none, true)) k none rfl hwdis
      (by simp [stageOf, hctx]) (by simp [stageOf, hexit])]
    simp [stageOf]
  have hpr : pipelineResults c.usePTY c.worlds =
      [{ Stdout := w.stdout, Stderr := w.stderr, ExitCode := k, Err := none,
         signal := none }] := by
    unfold pipelineResults
    rw [hst, List.map_cons, List.map_nil, hr]
  have hrc : c.runCall.res =
      { Stdout := w.stdout, Stderr := w.stderr, ExitCode := k, Err := none,
        signal := none } := by
    show (match c.validatePTY with
      | some e =>
        ({ res := { Result.zero with Err := some e, ExitCode := -1 },
           err := some e, stageResults := [], spawnedAny := false } : RunReturn)
      | none =>
        let results := pipelineResults c.usePTY c.worlds
        let primary := primaryResult c.mode results
        ({ res := primary, err := primary.Err, stageResults := results,
           spawnedAny := anySpawned c.usePTY c.worlds } : RunReturn)).res = _
    rw [hv]
    show primaryResult c.mode (pipelineResults c.usePTY c.worlds) = _
    rw [hpr]
    exact primaryResult_single c.mode _ rfl
  rw [hrc]
  exact ⟨rfl, rfl⟩


theorem single_stage_exit_code_witness :
    c4Chain.worlds = [{ osWaitErr := some (.exitErr 7), exitRecord := some (7, none) }] ∧
    c4Chain.runCall.res.ExitCode = 7 ∧ c4Chain.runCall.res.Err = none := by
  refine ⟨rfl, ?_⟩
  exact single_stage_exit_code_is_not_error c4Chain
    { osWaitErr := some (.exitErr 7), exitRecord := some (7, none) } 7
    rfl rfl rfl (by norm_num) rfl rfl


/-- C5 counterexample: the claim says a stage with no wait error whose
bound cancellation signal fired gets that cancellation error on its
`Result`; on this concrete stage the code leaves the error nil, because
the context check is only reached when the OS wait returned an error. -/
theorem no_wait_error_ignores_fired_context :
    c5Stage.startErr = none ∧ c5Stage.waitErr = none ∧
    c5Stage.ctxErr = some .canceled ∧
    c5Stage.result.Err = none ∧ c5Stage.result.Err ≠ c5Stage.ctxErr := by
  refine ⟨rfl, rfl, rfl, rfl, ?_⟩
  intro h
  simp [c5Stage, StageState.result] at h

/-- C5 (amended): for every started stage, the fired bound cancellation
signal becomes the `Result` error only when the OS wait returned some
non-cancellation error; when the OS wait returned no error at all, the
context is not consulted and the error stays nil. -/
theorem fired_context_needs_wait_error :
    (∀ (s : StageState) (w : GoErr), s.startErr = none → s.waitErr = some w →
      w.isCancellation = false → s.ctxErr ≠ none → s.result.Err = s.ctxErr) ∧
    (∀ s : StageState, s.startErr = none → s.waitErr = none →
      s.result.Err = none) := by
  constructor
  · intro s w h1 h2 hc hctx
    obtain ⟨ce, hce⟩ := Option.ne_none_iff_exists'.mp hctx
    unfold StageState.result
    rw [h1, h2, hce]
    simp [hc]
    cases s.exitRecord <;> rfl
  · intro s h1 h2
    unfold StageState.result
    rw [h1, h2]
    cases s.exitRecord <;> rfl



theorem fired_context_needs_wait_error_witness :
    c5aStage.result.Err = c5aStage.ctxErr ∧ c5bStage.result.Err = none :=
  ⟨fired_context_needs_wait_error.1 c5aStage (.exitErr 1) rfl rfl rfl
    (by simp [c5aStage]),
   fired_context_needs_wait_error.2 c5bStage rfl rfl⟩

theorem getD_map_const {α β : Type} (l : List α) (k : β) (i : Nat)
    (hi : i < l.length) (d : β) :
    (l.map (fun _ => k)).getD i d = k := by
  induction l generalizing i with
  | nil => simp at hi
  | cons a as ih =>
    cases i with
    | zero => rfl
    | succ j => simpa using ih j (by simpa using hi)


/-- C6 counterexample: when stage 0's setup has already failed, `start`
records the setup error as stage 0's start error and spawns nothing
further, but stage 1 is NOT marked with that same start error — its start
error stays nil, contradicting the claim that setup failures propagate
like spawn failures. -/
theorem setup_failure_not_propagated :
    startPhase true c6Worlds =
      [(some (.other "pty open failed"), false), (none, false)] ∧
    ((startPhase true c6Worlds).getD 1 (none, true)).1 ≠
      some (.other "pty open failed") := by
  refine ⟨rfl, ?_⟩
  intro h
  exact Option.noConfusion h

/-- C6 (amended): if stage `i` is the first stage reached with a failure,
then: when its spawn attempt fails with error `e`, every later stage is
marked with that same start error and never spawned; when instead its
setup had already failed with error `e`, stage `i` itself takes `e` as its
start error without a spawn attempt and no later stage is spawned, but the
later stages' start errors are left nil. -/
theorem start_failure_marks_and_skips (u : Bool) (ws : List StageWorld) (i : Nat)
    (hclean : ∀ j, j < i →
      (if u then (ws.getD j default).ptyOpenErr else none) = none ∧
      (ws.getD j default).spawnErr = none)
    (hi : i < ws.length) :
    ((if u then (ws.getD i default).ptyOpenErr else none) = none →
      ∀ e, (ws.getD i default).spawnErr = some e →
      ∀ k, i < k → k < ws.length →
        (startPhase u ws).getD k (none, true) = (some e, false)) ∧
    (∀ e, (if u then (ws.getD i default).ptyOpenErr else none) = some e →
      (startPhase u ws).getD i (none, true) = (some e, false) ∧
      ∀ k, i < k → k < ws.length →
        (startPhase u ws).getD k (none, true) = (none, false)) := by
  induction i generalizing ws with
  | zero =>
    cases ws with
    | nil => simp at hi
    | cons w rest =>
      constructor
      · intro hsetup e hspawn k hk0 hklen
        have hsp : startPhase u (w :: rest) =
            (some e, false) :: rest.map (fun _ => (some e, false)) := by
          simp only [startPhase]
          rw [show (if u then w.ptyOpenErr else none) =
            (if u then (List.getD (w :: rest) 0 default).ptyOpenErr else none) from rfl]
          rw [hsetup]
          rw [show w.spawnErr = (List.getD (w :: rest) 0 default).spawnErr from rfl,
            hspawn]
        rw [hsp]
        cases k with
        | zero => simp at hk0
        | succ k2 =>
          rw [List.getD_cons_succ]
          exact getD_map_const rest (some e, false) k2 (by simpa using hklen) _
      · intro e hsetup
        have hsp : startPhase u (w :: rest) =
            (some e, false) :: rest.map (fun _ => ((none : Option GoErr), false)) := by
          simp only [startPhase]
          rw [show (if u then w.ptyOpenErr else none) =
            (if u then (List.getD (w :: rest) 0 default).ptyOpenErr else none) from rfl]
          rw [hsetup]
        rw [hsp]
        refine ⟨rfl, ?_⟩
        intro k hk0 hklen
        cases k with
        | zero => simp at hk0
        | succ k2 =>
          rw [List.getD_cons_succ]
          exact getD_map_const rest (none, false) k2 (by simpa using hklen) _
  | succ i2 ih =>
    cases ws with
    | nil => simp at hi
    | cons w rest =>
      have hw0 := hclean 0 (Nat.succ_pos i2)
      have hsp : startPhase u (w :: rest) = (none, true) :: startPhase u rest := by
        simp only [startPhase]
        rw [show (if u then w.ptyOpenErr else none) =
          (if u then (List.getD (w :: rest) 0 default).ptyOpenErr else none) from rfl]
        rw [hw0.1]
        rw [show w.spawnErr = (List.getD (w :: rest) 0 default).spawnErr from rfl,
          hw0.2]
      have hclean2 : ∀ j, j < i2 →
          (if u then (rest.getD j default).ptyOpenErr else none) = none ∧
          (rest.getD j default).spawnErr = none := by
        intro j hj
        have := hclean (j + 1) (Nat.succ_lt_succ hj)
        rwa [List.getD_cons_succ] at this
      have hi2 : i2 < rest.length := by simpa using hi
      obtain ⟨ihA, ihB⟩ := ih rest hclean2 hi2
      constructor
      · intro hsetup e hspawn k hk0 hklen
        rw [List.getD_cons_succ] at hsetup hspawn
        cases k with
        | zero => simp at hk0
        | succ k2 =>
          rw [hsp, List.getD_cons_succ]
          exact ihA hsetup e hspawn k2 (by simpa using hk0) (by simpa using hklen)
      · intro e hsetup
        rw [List.getD_cons_succ] at hsetup
        obtain ⟨hB1, hB2⟩ := ihB e hsetup
        constructor
        · rw [hsp, List.getD_cons_succ]
          exact hB1
        · intro k hk0 hklen
          cases k with
          | zero => simp at hk0
          | succ k2 =>
            rw [hsp, List.getD_cons_succ]
            exact hB2 k2 (by simpa using hk0) (by simpa using hklen)


theorem start_failure_marks_and_skips_witness :
    (0 : Nat) < c6aWorlds.length ∧
    (startPhase false c6aWorlds).getD 1 (none, true) =
      (some (.other "spawn failed"), false) := by
  refine ⟨by simp [c6aWorlds], ?_⟩
  exact (start_failure_marks_and_skips false c6aWorlds 0
    (fun j hj => absurd hj (Nat.not_lt_zero j)) (by simp [c6aWorlds])).1
    rfl (.other "spawn failed") rfl 1 Nat.zero_lt_one (by simp [c6aWorlds])

/-- C7: requesting PTY mode on a chain with more than one stage makes
every execution entry point (`Run`, `CombinedOutput`, `PipelineResults`,
`Start`) fail with the configuration error, before any process is
spawned and with no partial side effects. -/
theorem pty_with_pipeline_fails_fast (c : Chain)
    (hp : c.usePTY = true) (hm : 1 < c.worlds.length) :
    c.validatePTY = some ptyPipelineErr ∧
    c.runCall.err = some ptyPipelineErr ∧
    c.runCall.res.Err = some ptyPipelineErr ∧
    c.runCall.res.ExitCode = -1 ∧
    c.runCall.spawnedAny = false ∧
    c.combinedOutputCall.err = some ptyPipelineErr ∧
    c.combinedOutputCall.combined = "" ∧
    c.combinedOutputCall.spawnedAny = false ∧
    c.pipelineResultsCall.err = some ptyPipelineErr ∧
    c.pipelineResultsCall.results = [] ∧
    c.pipelineResultsCall.spawnedAny = false ∧
    c.startCall.proc.fired = true ∧
    c.startCall.proc.result.Err = some ptyPipelineErr ∧
    c.startCall.proc.result.ExitCode = -1 ∧
    c.startCall.spawnedAny = false := by
  have hv : c.validatePTY = some ptyPipelineErr := by
    unfold Chain.validatePTY
    rw [hp]
    simp [hm]
  unfold Chain.runCall Chain.combinedOutputCall Chain.pipelineResultsCall
    Chain.startCall
  rw [hv]
  simp [ProcState.finish, ProcState.fresh, Result.zero, hv]


theorem pty_with_pipeline_witness :
    c7Chain.usePTY = true ∧ 1 < c7Chain.worlds.length ∧
    c7Chain.validatePTY = some ptyPipelineErr ∧
    c7Chain.runCall.err = some ptyPipelineErr ∧
    c7Chain.runCall.spawnedAny = false :=
  have h := pty_with_pipeline_fails_fast c7Chain rfl (by simp [c7Chain])
  ⟨rfl, by simp [c7Chain], h.1, h.2.1, h.2.2.2.2.1⟩

theorem finish_of_fired (q : ProcState) (x : Result) (hq : q.fired = true) :
    q.finish x = q := by
  unfold ProcState.finish
  rw [hq]
  simp

theorem foldl_finish_of_fired (l : List Result) (q : ProcState)
    (hq : q.fired = true) :
    l.foldl ProcState.finish q = q := by
  induction l with
  | nil => rfl
  | cons x xs ih =>
    simp only [List.foldl_cons]
    rw [finish_of_fired q x hq]
    exact ih

/-- C8: `Process.Wait` is idempotent — once the completion latch has
fired with result `r`, any further finish attempts leave the state
unchanged, every `Wait` call returns the same stored `Result` and error,
and the latch body has executed exactly once. -/
theorem wait_is_idempotent (p0 : ProcState) (r : Result) (rs : List Result)
    (hf : p0.fired = false) (hc : p0.fireCount = 0) :
    rs.foldl ProcState.finish (p0.finish r) = p0.finish r ∧
    (rs.foldl ProcState.finish (p0.finish r)).waitCall = (r, r.Err) ∧
    (rs.foldl ProcState.finish (p0.finish r)).fireCount = 1 := by
  have h1 : p0.finish r = { fired := true, result := r, fireCount := 1 } := by
    unfold ProcState.finish
    rw [hf, hc]
    simp
  have h2 : rs.foldl ProcState.finish (p0.finish r) = p0.finish r :=
    foldl_finish_of_fired rs (p0.finish r) (by rw [h1])
  refine ⟨h2, ?_, ?_⟩
  · rw [h2, h1]
    rfl
  · rw [h2, h1]

theorem wait_is_idempotent_witness :
    ProcState.fresh.fired = false ∧ ProcState.fresh.fireCount = 0 ∧
    ((([⟨"other", "", 1, none, none⟩] : List Result).foldl ProcState.finish
        (ProcState.fresh.finish ⟨"hi", "", 0, none, none⟩)).waitCall =
      (⟨"hi", "", 0, none, none⟩, none) ∧
     (([⟨"other", "", 1, none, none⟩] : List Result).foldl ProcState.finish
        (ProcState.fresh.finish ⟨"hi", "", 0, none, none⟩)).fireCount = 1) :=
  have h := wait_is_idempotent ProcState.fresh ⟨"hi", "", 0, none, none⟩
    [⟨"other", "", 1, none, none⟩] rfl rfl
  ⟨rfl, rfl, h.2.1, h.2.2⟩

/-! Lemmas about newline segmentation for the line writer. -/

theorem splitNL_nl (rest : List Nat) :
    splitNL (10 :: rest) = ([] :: (splitNL rest).1, (splitNL rest).2) := by
  simp [splitNL]

theorem splitNL_other (b : Nat) (rest : List Nat) (hb : ¬b = 10) :
    splitNL (b :: rest) =
      (match (splitNL rest).1 with
       | [] => ([], b :: (splitNL rest).2)
       | seg :: segs => ((b :: seg) :: segs, (splitNL rest).2)) := by
  simp [splitNL, hb]

theorem lwWrite_nl (buf rest : List Nat) :
    lwWrite buf (10 :: rest) =
      ((lwWrite [] rest).1, stripCR buf :: (lwWrite [] rest).2) := by
  simp [lwWrite]

theorem lwWrite_other (buf : List Nat) (b : Nat) (rest : List Nat)
    (hb : ¬b = 10) :
    lwWrite buf (b :: rest) = lwWrite (buf ++ [b]) rest := by
  simp [lwWrite, hb]

theorem splitNL_no_nl (l : List Nat) (h : ¬10 ∈ l) : splitNL l = ([], l) := by
  induction l with
  | nil => rfl
  | cons b bs ih =>
    have hb : ¬b = 10 := fun hb => h (hb ▸ List.mem_cons_self b bs)
    have hbs : ¬10 ∈ bs := fun hm => h (List.mem_cons_of_mem b hm)
    rw [splitNL_other b bs hb, ih hbs]

theorem splitNL_append_nl (buf rest : List Nat) (h : ¬10 ∈ buf) :
    splitNL (buf ++ 10 :: rest) =
      (buf :: (splitNL rest).1, (splitNL rest).2) := by
  induction buf with
  | nil => rw [List.nil_append, splitNL_nl]
  | cons b bs ih =>
    have hb : ¬b = 10 := fun hb => h (hb ▸ List.mem_cons_self b bs)
    have hbs : ¬10 ∈ bs := fun hm => h (List.mem_cons_of_mem b hm)
    rw [List.cons_append, splitNL_other b (bs ++ 10 :: rest) hb, ih hbs]

theorem splitNL_tail_no_nl (l : List Nat) : ¬10 ∈ (splitNL l).2 := by
  induction l with
  | nil => simp [splitNL]
  | cons b bs ih =>
    by_cases hb : b = 10
    · subst hb
      rw [splitNL_nl]
      exact ih
    · rw [splitNL_other b bs hb]
      cases hs : (splitNL bs).1 with
      | nil =>
        intro hm
        rcases List.mem_cons.mp hm with hm | hm
        · exact hb hm.symm
        · exact ih hm
      | cons seg segs => exact ih

theorem lwWrite_eq (p : List Nat) (buf : List Nat) (hb : ¬10 ∈ buf) :
    lwWrite buf p =
      ((splitNL (buf ++ p)).2, (splitNL (buf ++ p)).1.map stripCR) := by
  induction p generalizing buf with
  | nil =>
    rw [List.append_nil, splitNL_no_nl buf hb]
    rfl
  | cons b rest ih =>
    by_cases hbnl : b = 10
    · subst hbnl
      rw [lwWrite_nl, ih [] (by simp), splitNL_append_nl buf rest hb]
      simp
    · have hstep : buf ++ b :: rest = (buf ++ [b]) ++ rest := by simp
      have hb2 : ¬10 ∈ buf ++ [b] := by
        intro hm
        rcases List.mem_append.mp hm with hm | hm
        · exact hb hm
        · exact hbnl (List.mem_singleton.mp hm).symm
      rw [lwWrite_other buf b rest hbnl, hstep, ih (buf ++ [b]) hb2]

theorem splitNL_append (x y : List Nat) :
    splitNL (x ++ y) =
      ((splitNL x).1 ++ (splitNL ((splitNL x).2 ++ y)).1,
       (splitNL ((splitNL x).2 ++ y)).2) := by
  induction x with
  | nil => simp [splitNL]
  | cons b bs ih =>
    by_cases hb : b = 10
    · subst hb
      rw [List.cons_append, splitNL_nl, splitNL_nl, ih]
      simp only [List.cons_append]
    · rw [List.cons_append, splitNL_other b (bs ++ y) hb,
        splitNL_other b bs hb, ih]
      cases hs : (splitNL bs).1 with
      | nil =>
        simp only [hs, List.nil_append]
        rw [List.cons_append]
        rw [splitNL_other b ((splitNL bs).2 ++ y) hb]
      | cons seg segs => simp [hs]

theorem lwRun_eq (ps : List (List Nat)) (buf : List Nat) (hb : ¬10 ∈ buf) :
    lwRun buf ps =
      ((splitNL (buf ++ ps.flatten)).2,
       (splitNL (buf ++ ps.flatten)).1.map stripCR) := by
  induction ps generalizing buf with
  | nil =>
    rw [List.flatten_nil, List.append_nil, splitNL_no_nl buf hb]
    rfl
  | cons p ps2 ih =>
    show ((lwRun (lwWrite buf p).1 ps2).1,
        (lwWrite buf p).2 ++ (lwRun (lwWrite buf p).1 ps2).2) = _
    rw [lwWrite_eq p buf hb,
      ih (splitNL (buf ++ p)).2 (splitNL_tail_no_nl (buf ++ p))]
    have hassoc : buf ++ (p :: ps2).flatten = (buf ++ p) ++ ps2.flatten := by
      simp
    rw [hassoc, splitNL_append (buf ++ p) ps2.flatten, List.map_append]

/-- C9: for every sequence of byte slices written to a line-buffering
adapter starting empty, the callback receives exactly the
newline-terminated segments of the concatenated stream, in order, each
excluding its newline and with one trailing carriage return stripped,
while the bytes after the last newline are retained in the buffer and
produce no callback. -/
theorem lineWriter_emits_newline_segments (ps : List (List Nat)) :
    lwRun [] ps =
      ((splitNL ps.flatten).2, (splitNL ps.flatten).1.map stripCR) := by
  simpa using lwRun_eq ps [] (by simp)

theorem firstResultErr_eq_find (l : List Result) :
    firstResultErr l = (l.find? (fun r => r.Err.isSome)).bind Result.Err := by
  induction l with
  | nil => rfl
  | cons r rs ih =>
    cases he : r.Err with
    | some e =>
      rw [List.find?_cons_of_pos _ (by simp [he])]
      simp [firstResultErr, he]
    | none =>
      rw [List.find?_cons_of_neg _ (by simp [he])]
      simp only [firstResultErr, he]
      exact ih

theorem firstResultErr_none_iff (l : List Result) :
    firstResultErr l = none ↔ ∀ r ∈ l, r.Err = none := by
  induction l with
  | nil => simp [firstResultErr]
  | cons r rs ih =>
    cases he : r.Err with
    | some e => simp [firstResultErr, he]
    | none => simp [firstResultErr, he, ih]

/-- C10: `PipelineResults` returns as its error the error of the first
per-stage `Result` (in stage order) whose `Err` is non-nil, and returns
nil exactly when every per-stage `Result` has nil `Err`. -/
theorem pipelineResults_error_is_first_stage_error (c : Chain)
    (hv : c.validatePTY = none) :
    c.pipelineResultsCall.err =
      (c.pipelineResultsCall.results.find? (fun r => r.Err.isSome)).bind
        Result.Err ∧
    (c.pipelineResultsCall.err = none ↔
      ∀ r ∈ c.pipelineResultsCall.results, r.Err = none) := by
  have h1 : c.pipelineResultsCall =
      { results := pipelineResults c.usePTY c.worlds,
        err := firstResultErr (pipelineResults c.usePTY c.worlds),
        spawnedAny := anySpawned c.usePTY c.worlds } := by
    unfold Chain.pipelineResultsCall
    rw [hv]
  rw [h1]
  exact ⟨firstResultErr_eq_find _, firstResultErr_none_iff _⟩


theorem pipelineResults_error_witness :
    c10Chain.validatePTY = none ∧
    c10Chain.pipelineResultsCall.err =
      (c10Chain.pipelineResultsCall.results.find? (fun r => r.Err.isSome)).bind
        Result.Err :=
  ⟨rfl, (pipelineResults_error_is_first_stage_error c10Chain rfl).1⟩

end Execx
